import Mathlib

/-!
# Verification of the vps-status monitoring core (`src/db.py`)

Shallow embedding of the aggregation/identity/probing core of the repository:
the snowflake identifier generator, the server registry, the reachability
prober, the health classifier and the two time-bucket aggregators.  Python
integers are modelled as `Nat`/`Int`, SQL `REAL` columns and float arithmetic
as `ℚ`, nullable columns as `Option`, and tables as insertion-ordered lists of
row structures.  Wall-clock reads (`time.time()`) are passed in explicitly.
-/

namespace VpsStatus

/-! ## Snowflake ID generator (`SnowflakeIdGenerator`, db.py lines 12-48)

The generator keeps `(worker_id, sequence, last_timestamp)` behind a lock; the
lock makes each `next_id` call one atomic step, so a run is modelled as a
sequence of calls, each consuming readings from a supplied clock stream
(`time.time()*1000` readings, in milliseconds).  `last_timestamp` starts
at `-1`, hence is an `Int`.  Clock readings are `Nat` milliseconds; the
Python expression `(timestamp - epoch) << 22` is embedded with truncated
`Nat` subtraction, which agrees with Python whenever the reading is at or
after the generator's 2024-01-01 epoch (readings before the epoch would
produce negative Python ints; all theorems below assume an epoch-or-later
clock, which every reading of a sanely set clock satisfies). -/

def epochMillis : Nat := 1704067200000

structure SnowflakeState where
  worker_id : Nat
  sequence : Nat
  last_timestamp : Int
deriving Repr, DecidableEq

/-- The module-level `id_gen = SnowflakeIdGenerator()` (worker_id defaults to 1). -/
def initSnowflake : SnowflakeState :=
  { worker_id := 1, sequence := 0, last_timestamp := -1 }

/-- `((timestamp - epoch) << 22) | (worker_id << 12) | sequence` (db.py line 43). -/
def snowflakeCompose (timestamp worker seq : Nat) : Nat :=
  ((timestamp - epochMillis) <<< 22) ||| (worker <<< 12) ||| seq

/-- The busy-wait loop `while timestamp <= self.last_timestamp: timestamp =
self._current_millis()` (db.py lines 35-36), consuming clock readings until one
exceeds `last`; `none` when the supplied readings run out (a model artifact:
Python would keep polling the clock). -/
def waitNextMillis (last : Int) : List Nat → Option (Nat × List Nat)
  | [] => none
  | t :: rest => if (t : Int) ≤ last then waitNextMillis last rest else some (t, rest)

inductive NextIdOutcome where
  | ok (id : Nat)
  | clockRewind
  | needMoreClock
deriving Repr, DecidableEq

/-- One `next_id()` call (db.py lines 24-44).  Returns the outcome, the state
after the call, and the unconsumed clock readings.  `clockRewind` models
`raise Exception("时钟回拨")`; the state is returned unchanged there because the
Python code raises before mutating any field.  The returned identifier is the
integer value; Python returns its decimal string, and `str` is injective, so
distinctness/ordering facts transfer. -/
def next_id (st : SnowflakeState) : List Nat → NextIdOutcome × SnowflakeState × List Nat
  | [] => (.needMoreClock, st, [])
  | t :: rest =>
    if (t : Int) < st.last_timestamp then
      (.clockRewind, st, rest)
    else if (t : Int) = st.last_timestamp then
      let seq := (st.sequence + 1) % 4096
      if seq = 0 then
        match waitNextMillis st.last_timestamp rest with
        | none => (.needMoreClock, st, [])
        | some (t2, rest2) =>
            (.ok (snowflakeCompose t2 st.worker_id 0),
             { st with sequence := 0, last_timestamp := (t2 : Int) }, rest2)
      else
        (.ok (snowflakeCompose t st.worker_id seq),
         { st with sequence := seq, last_timestamp := (t : Int) }, rest)
    else
      (.ok (snowflakeCompose t st.worker_id 0),
       { st with sequence := 0, last_timestamp := (t : Int) }, rest)

/-- Run `n` successive `next_id()` calls; `some` iff every call returned an id. -/
def runCalls : Nat → SnowflakeState → List Nat → Option (List Nat × SnowflakeState × List Nat)
  | 0, st, reads => some ([], st, reads)
  | n + 1, st, reads =>
    match next_id st reads with
    | (.ok id, st2, rest) =>
      match runCalls n st2 rest with
      | some (ids, stF, restF) => some (id :: ids, stF, restF)
      | none => none
    | _ => none

/-- A well-behaved clock stream: readings never decrease (the hypothesis of
C6) and are at/after the generator's epoch. -/
def ClockOk (l : List Nat) : Prop :=
  List.Chain' (· ≤ ·) l ∧ ∀ t ∈ l, epochMillis ≤ t

/-- Generator-state invariant maintained by `next_id`. -/
def SnowflakeInv (st : SnowflakeState) : Prop :=
  st.worker_id = 1 ∧ st.sequence < 4096 ∧
    (st.last_timestamp = -1 ∨ (epochMillis : Int) ≤ st.last_timestamp)

/-- Lexicographic order on the (last_timestamp, sequence) pair of states. -/
def stateKeyLt (a b : SnowflakeState) : Prop :=
  a.last_timestamp < b.last_timestamp ∨
    (a.last_timestamp = b.last_timestamp ∧ a.sequence < b.sequence)

/-- The id that `next_id` emits is the composition of the post-call state. -/
def stateId (st : SnowflakeState) : Nat :=
  snowflakeCompose st.last_timestamp.toNat st.worker_id st.sequence

theorem shiftLeft_or_low (a m n : Nat) (h : m < 2 ^ n) : (a <<< n) ||| m = a * 2 ^ n + m := by
  rw [Nat.shiftLeft_eq, Nat.mul_comm, ← Nat.mul_add_lt_is_or h a]

theorem snowflakeCompose_eq (t w s : Nat) (hw : w < 1024) (hs : s < 4096) :
    snowflakeCompose t w s = (t - epochMillis) * 4194304 + (w * 4096 + s) := by
  have e12 : (2 : Nat) ^ 12 = 4096 := by norm_num
  have e22 : (2 : Nat) ^ 22 = 4194304 := by norm_num
  have hs12 : s < 2 ^ 12 := lt_of_lt_of_eq hs e12.symm
  have hlow : w * 2 ^ 12 + s < 2 ^ 22 := by rw [e12, e22]; omega
  unfold snowflakeCompose
  rw [Nat.or_assoc, shiftLeft_or_low w s 12 hs12,
    shiftLeft_or_low (t - epochMillis) (w * 2 ^ 12 + s) 22 hlow, e12, e22]

theorem snowflakeCompose_lt (t1 t2 s1 s2 : Nat) (h1 : s1 < 4096) (h2 : s2 < 4096)
    (he : epochMillis ≤ t1) (hlex : t1 < t2 ∨ (t1 = t2 ∧ s1 < s2)) :
    snowflakeCompose t1 1 s1 < snowflakeCompose t2 1 s2 := by
  rw [snowflakeCompose_eq t1 1 s1 (by omega) h1, snowflakeCompose_eq t2 1 s2 (by omega) h2]
  omega

theorem waitNextMillis_spec (last : Int) :
    ∀ (l : List Nat) (t2 : Nat) (rest2 : List Nat),
      waitNextMillis last l = some (t2, rest2) →
      last < (t2 : Int) ∧ t2 ∈ l ∧ (t2 :: rest2) <:+ l := by
  intro l
  induction l with
  | nil => intro t2 rest2 h; simp [waitNextMillis] at h
  | cons t rest ih =>
    intro t2 rest2 h
    unfold waitNextMillis at h
    by_cases hle : (t : Int) ≤ last
    · simp only [hle, if_pos] at h
      obtain ⟨hlt, hmem, hsuf⟩ := ih t2 rest2 h
      exact ⟨hlt, List.mem_cons_of_mem _ hmem, hsuf.trans (List.suffix_cons _ _)⟩
    · simp only [hle, if_neg, not_false_iff, Option.some.injEq, Prod.mk.injEq] at h
      obtain ⟨h1, h2⟩ := h
      subst h1; subst h2
      exact ⟨by omega, List.mem_cons_self _ _, List.suffix_refl _⟩

theorem ClockOk.of_suffix {l l' : List Nat} (h : ClockOk l) (hs : l' <:+ l) : ClockOk l' := by
  obtain ⟨pre, rfl⟩ := hs
  obtain ⟨hchain, hep⟩ := h
  exact ⟨(List.chain'_append.mp hchain).2.1, fun t ht => hep t (List.mem_append_right _ ht)⟩

theorem ClockOk.tail {t : Nat} {l : List Nat} (h : ClockOk (t :: l)) : ClockOk l :=
  h.of_suffix (List.suffix_cons _ _)

/-- Step lemma: a successful `next_id` call preserves the invariant, strictly
advances the (timestamp, sequence) key, emits the id of the post state, and
leaves a suffix of the clock readings. -/
theorem next_id_ok_step {st st2 : SnowflakeState} {id : Nat} {reads rest : List Nat}
    (hInv : SnowflakeInv st) (hc : ClockOk reads)
    (h : next_id st reads = (.ok id, st2, rest)) :
    SnowflakeInv st2 ∧ (epochMillis : Int) ≤ st2.last_timestamp ∧
      st2.worker_id = 1 ∧ id = stateId st2 ∧ stateKeyLt st st2 ∧ rest <:+ reads := by
  obtain ⟨hw, hseq, hlast⟩ := hInv
  match reads with
  | [] => simp [next_id] at h
  | t :: rest0 =>
    have hte : epochMillis ≤ t := hc.2 t (List.mem_cons_self _ _)
    simp only [next_id] at h
    by_cases hlt : (t : Int) < st.last_timestamp
    · rw [if_pos hlt] at h
      exact absurd h (by simp)
    · rw [if_neg hlt] at h
      by_cases heq : (t : Int) = st.last_timestamp
      · rw [if_pos heq] at h
        by_cases hz : (st.sequence + 1) % 4096 = 0
        · simp only [if_pos hz] at h
          match hwait : waitNextMillis st.last_timestamp rest0 with
          | none =>
            rw [hwait] at h
            exact absurd h (by simp)
          | some (t2, rest2) =>
            rw [hwait] at h
            simp only [Prod.mk.injEq, NextIdOutcome.ok.injEq] at h
            obtain ⟨hid, hst2, hrest⟩ := h
            obtain ⟨hgt, hmem, hsuf⟩ := waitNextMillis_spec st.last_timestamp rest0 t2 rest2 hwait
            have ht2e : epochMillis ≤ t2 := (hc.tail).2 t2 hmem
            have hlast2 : st2.last_timestamp = (t2 : Int) := by rw [← hst2]
            have hseq2 : st2.sequence = 0 := by rw [← hst2]
            have hw2 : st2.worker_id = st.worker_id := by rw [← hst2]
            refine ⟨⟨by rw [hw2, hw], by rw [hseq2]; omega,
              Or.inr (by rw [hlast2]; exact_mod_cast ht2e)⟩,
              by rw [hlast2]; exact_mod_cast ht2e, by rw [hw2, hw], ?_, ?_, ?_⟩
            · rw [← hid, stateId, hlast2, hseq2, hw2, Int.toNat_natCast]
            · exact Or.inl (by rw [hlast2]; exact hgt)
            · subst hrest
              exact ((List.suffix_cons t2 rest2).trans hsuf).trans (List.suffix_cons t rest0)
        · simp only [if_neg hz, Prod.mk.injEq, NextIdOutcome.ok.injEq] at h
          obtain ⟨hid, hst2, hrest⟩ := h
          have hs4 : (st.sequence + 1) % 4096 = st.sequence + 1 := by omega
          have hlast2 : st2.last_timestamp = (t : Int) := by rw [← hst2]
          have hseq2 : st2.sequence = (st.sequence + 1) % 4096 := by rw [← hst2]
          have hw2 : st2.worker_id = st.worker_id := by rw [← hst2]
          refine ⟨⟨by rw [hw2, hw], by rw [hseq2]; omega,
            Or.inr (by rw [hlast2]; exact_mod_cast hte)⟩,
            by rw [hlast2]; exact_mod_cast hte, by rw [hw2, hw], ?_, ?_, ?_⟩
          · rw [← hid, stateId, hlast2, hseq2, hw2, Int.toNat_natCast]
          · exact Or.inr ⟨by rw [hlast2, heq], by rw [hseq2, hs4]; omega⟩
          · subst hrest; exact List.suffix_cons _ _
      · simp only [Prod.mk.injEq, NextIdOutcome.ok.injEq, if_neg heq] at h
        obtain ⟨hid, hst2, hrest⟩ := h
        have hlast2 : st2.last_timestamp = (t : Int) := by rw [← hst2]
        have hseq2 : st2.sequence = 0 := by rw [← hst2]
        have hw2 : st2.worker_id = st.worker_id := by rw [← hst2]
        refine ⟨⟨by rw [hw2, hw], by rw [hseq2]; omega,
          Or.inr (by rw [hlast2]; exact_mod_cast hte)⟩,
          by rw [hlast2]; exact_mod_cast hte, by rw [hw2, hw], ?_, ?_, ?_⟩
        · rw [← hid, stateId, hlast2, hseq2, hw2, Int.toNat_natCast]
        · exact Or.inl (by rw [hlast2]; omega)
        · subst hrest; exact List.suffix_cons _ _

/-- Over a non-rewinding clock, a run of successful calls yields strictly
increasing ids, all above the id encoded by the starting state. -/
theorem runCalls_chain :
    ∀ (n : Nat) (st : SnowflakeState) (reads : List Nat) (ids : List Nat)
      (stF : SnowflakeState) (restF : List Nat),
      SnowflakeInv st → ClockOk reads →
      runCalls n st reads = some (ids, stF, restF) →
      List.Chain' (· < ·) ids ∧
        ((epochMillis : Int) ≤ st.last_timestamp → ∀ x ∈ ids, stateId st < x) := by
  intro n
  induction n with
  | zero =>
    intro st reads ids stF restF _ _ h
    simp only [runCalls, Option.some.injEq, Prod.mk.injEq] at h
    obtain ⟨h1, -, -⟩ := h
    subst h1
    exact ⟨List.chain'_nil, fun _ x hx => absurd hx (List.not_mem_nil x)⟩
  | succ n ih =>
    intro st reads ids stF restF hInv hc h
    unfold runCalls at h
    split at h
    next id st2 rest hstep =>
      split at h
      next ids2 stF2 restF2 hrec =>
        simp only [Option.some.injEq, Prod.mk.injEq] at h
        obtain ⟨h1, -, -⟩ := h
        subst h1
        obtain ⟨hInv2, hep2, hw2, hid, hkey, hsuf⟩ := next_id_ok_step hInv hc hstep
        obtain ⟨hchain2, hbound2⟩ := ih st2 rest ids2 stF2 restF2 hInv2 (hc.of_suffix hsuf) hrec
        have hbound := hbound2 hep2
        have hkey_lt : ∀ a b : SnowflakeState, SnowflakeInv a → SnowflakeInv b →
            (epochMillis : Int) ≤ a.last_timestamp → (epochMillis : Int) ≤ b.last_timestamp →
            stateKeyLt a b → stateId a < stateId b := by
          intro a b ha hb hae hbe hab
          unfold stateId
          rw [ha.1, hb.1]
          apply snowflakeCompose_lt _ _ _ _ ha.2.1 hb.2.1 (by omega)
          rcases hab with h | ⟨h1, h2⟩
          · exact Or.inl (by omega)
          · exact Or.inr ⟨by omega, h2⟩
        constructor
        · rw [List.chain'_cons']
          refine ⟨fun y hy => ?_, hchain2⟩
          have hy2 : y ∈ ids2 := by
            match ids2 with
            | [] => simp at hy
            | z :: _ => simp only [List.head?_cons, Option.mem_def, Option.some.injEq] at hy
                        subst hy; exact List.mem_cons_self _ _
          rw [hid]; exact hbound y hy2
        · intro hse x hx
          have hlt : stateId st < id := by
            rw [hid]
            exact hkey_lt st st2 hInv hInv2 hse hep2 hkey
          rcases List.mem_cons.mp hx with h | h
          · subst h; exact hlt
          · exact lt_trans hlt (hid ▸ hbound x h)
      next hrec => exact absurd h (by simp)
    next x hne => exact absurd h (by simp)

/-- C6: For every sequence of `next_id()` calls on one `SnowflakeIdGenerator`
instance with a clock that never runs backward (modelled as a non-decreasing
stream of millisecond readings at/after the generator's epoch), all returned
identifier values are pairwise distinct and, compared as raw integers,
monotonically non-decreasing in call order. -/
theorem snowflake_ids_distinct_and_monotone (reads : List Nat) (n : Nat)
    (ids : List Nat) (stF : SnowflakeState) (restF : List Nat)
    (hchain : List.Chain' (· ≤ ·) reads) (hep : ∀ t ∈ reads, epochMillis ≤ t)
    (hrun : runCalls n initSnowflake reads = some (ids, stF, restF)) :
    List.Pairwise (· ≠ ·) ids ∧ List.Chain' (· ≤ ·) ids := by
  have hInv : SnowflakeInv initSnowflake := ⟨rfl, by decide, Or.inl rfl⟩
  obtain ⟨hchain', -⟩ := runCalls_chain n initSnowflake reads ids stF restF hInv ⟨hchain, hep⟩ hrun
  have hpw : List.Pairwise (· < ·) ids := List.chain'_iff_pairwise.mp hchain'
  exact ⟨hpw.imp (fun h => Nat.ne_of_lt h), hchain'.imp (fun _ _ h => Nat.le_of_lt h)⟩

/-- Witness for C6 at a concrete three-call trace (all three calls inside the
same epoch millisecond: ids 4096, 4097, 4098). -/
theorem snowflake_ids_distinct_and_monotone_witness :
    List.Pairwise (· ≠ ·) [4096, 4097, 4098] ∧
      List.Chain' (· ≤ ·) ([4096, 4097, 4098] : List Nat) :=
  snowflake_ids_distinct_and_monotone [epochMillis, epochMillis, epochMillis] 3
    [4096, 4097, 4098] ⟨1, 2, (epochMillis : Int)⟩ []
    (by simp [List.chain'_cons]) (by decide) (by decide)

/-- C7: `next_id()` fails with the clock-rewind error iff the millisecond
reading taken at the start of the call is strictly below the generator's
last-used timestamp, and on that failure no identifier is returned and the
generator state is left untouched (no stale (timestamp, sequence) reuse). -/
theorem next_id_clock_rewind (st : SnowflakeState) (t : Nat) (rest : List Nat) :
    ((next_id st (t :: rest)).1 = NextIdOutcome.clockRewind ↔ (t : Int) < st.last_timestamp)
      ∧ ((t : Int) < st.last_timestamp →
          next_id st (t :: rest) = (NextIdOutcome.clockRewind, st, rest)) := by
  by_cases hlt : (t : Int) < st.last_timestamp
  · simp [next_id, hlt]
  · simp only [next_id, hlt, if_neg, not_false_iff]
    by_cases heq : (t : Int) = st.last_timestamp
    · simp only [heq, if_pos]
      by_cases hz : (st.sequence + 1) % 4096 = 0
      · simp only [hz, if_pos]
        match hwait : waitNextMillis st.last_timestamp rest with
        | none => simp [hwait, hlt]
        | some (t2, rest2) => simp [hwait, hlt]
      · simp [hz, hlt]
    · simp [heq, hlt]

/-! ## Data model (tables created by `init_db`, db.py lines 63-111)

Tables are modelled as insertion-ordered lists of rows (SQLite returns rows of
an unordered `SELECT` in rowid = insertion order, and `ORDER BY` clauses are
modelled with a stable sort / fold below).  Identifiers are modelled by the
integer value composed by the snowflake generator (Python stores its decimal
string; `str` on integers is injective).  Nullable columns are `Option`;
`REAL` columns and float arithmetic are modelled exactly over `ℚ`. -/

structure ServerRow where
  id : Nat
  name : String
  ip : String
  created_at : Int
  updated_at : Int
  remark : Option String
deriving Repr, DecidableEq

structure PingRow where
  id : Nat
  server_id : Nat
  ts : Int
  is_online : Nat
  latency_ms : Option ℚ
deriving Repr, DecidableEq

structure HeartbeatRow where
  id : Nat
  server_id : Nat
  ts : Int
  up_bytes : Option Int
  down_bytes : Option Int
  cpu_load : Option ℚ
  mem_load : Option ℚ
  ip : Option String
  raw_json : Option String
deriving Repr, DecidableEq

structure DB where
  servers : List ServerRow
  ping_status : List PingRow
  heartbeat_status : List HeartbeatRow
deriving Repr, DecidableEq

def emptyDB : DB := ⟨[], [], []⟩

/-! ## Server registry (`get_or_create_server`, db.py lines 114-158)

The call reads `now = int(time.time())` and may allocate one fresh snowflake
id; both are passed in explicitly (`now`, `new_id`).  A `None`/falsy argument
is `none` (Python's truthiness test on an empty-string address also takes the
falsy branch; the model identifies "absent" with `none`).  After the `INSERT`
the source re-`SELECT`s the new row by its primary key; in every non-raising
execution primary-key uniqueness makes that read return exactly the inserted
row, which the model returns directly. -/

def updateServerIp (servers : List ServerRow) (sid : Nat) (newIp : String) (now : Int) :
    List ServerRow :=
  servers.map fun r => if r.id = sid then { r with ip := newIp, updated_at := now } else r

def get_or_create_server (db : DB) (server_id : Option Nat) (server_name : Option String)
    (ip : Option String) (now : Int) (new_id : Nat) : Option ServerRow × DB :=
  let byId : Option ServerRow :=
    match server_id with
    | some sid => db.servers.find? (fun r => r.id == sid)
    | none => none
  match byId with
  | some row => (some row, db)
  | none =>
    match server_name with
    | some name =>
      match db.servers.find? (fun r => r.name == name) with
      | some row =>
        match ip with
        | some newIp =>
            (some row, { db with servers := updateServerIp db.servers row.id newIp now })
        | none => (some row, db)
      | none =>
        let newRow : ServerRow :=
          { id := new_id, name := name, ip := ip.getD "unknown", created_at := now,
            updated_at := now, remark := none }
        (some newRow, { db with servers := db.servers ++ [newRow] })
    | none => (none, db)

/-- `get_all_servers` (db.py lines 161-168): `SELECT * FROM servers ORDER BY
created_at DESC` as a stable descending sort on `created_at`. -/
def get_all_servers (db : DB) : List ServerRow :=
  db.servers.mergeSort (fun a b => decide (b.created_at ≤ a.created_at))

/-- `record_heartbeat` (db.py lines 171-195).  Returns `none` where Python
raises `ValueError("无法确定服务器")`. -/
def record_heartbeat (db : DB) (server_id : Option Nat) (server_name : Option String)
    (up_bytes down_bytes : Option Int) (cpu_load mem_load : Option ℚ)
    (client_ip raw_json : Option String) (now : Int) (new_server_id hb_id : Nat) :
    Option (Nat × Nat) × DB :=
  match get_or_create_server db server_id server_name client_ip now new_server_id with
  | (none, db1) => (none, db1)
  | (some server, db1) =>
    (some (server.id, hb_id),
     { db1 with heartbeat_status := db1.heartbeat_status ++
        [{ id := hb_id, server_id := server.id, ts := now, up_bytes := up_bytes,
           down_bytes := down_bytes, cpu_load := cpu_load, mem_load := mem_load,
           ip := client_ip, raw_json := raw_json }] })

/-! ## Reachability prober (`ping_and_record`, db.py lines 198-253)

One probe per server.  The subprocess interaction is abstracted as a
`ProbeOutcome` per server: either the ping command completed with a return
code (and, for return code 0, the optional latency the regex parsed from its
output), or something raised (timeout / tool fault), which the `except`
branch turns into an offline row.  One snowflake id per recorded row is drawn
from `idSupply` by position. -/

inductive ProbeOutcome where
  | completed (returncode : Int) (latencyMatch : Option ℚ)
  | raised
deriving Repr, DecidableEq

def pingRowFor (rowId : Nat) (server : ServerRow) (outcome : ProbeOutcome) (now : Int) :
    PingRow :=
  match outcome with
  | .completed rc m =>
    if rc = 0 then
      { id := rowId, server_id := server.id, ts := now, is_online := 1, latency_ms := m }
    else
      { id := rowId, server_id := server.id, ts := now, is_online := 0, latency_ms := none }
  | .raised => { id := rowId, server_id := server.id, ts := now, is_online := 0, latency_ms := none }

def ping_and_record (db : DB) (now : Int) (probe : ServerRow → ProbeOutcome)
    (idSupply : Nat → Nat) : DB :=
  let servers := get_all_servers db
  if servers.isEmpty then db
  else
    { db with ping_status := db.ping_status ++
        servers.enum.map (fun p => pingRowFor (idSupply p.1) p.2 (probe p.2) now) }

/-! ## Health classifier (`get_server_health_status`, db.py lines 256-294) -/

/-- `ORDER BY ts DESC LIMIT 1`: the most recent row, ties resolved toward the
later-inserted row (the covering index enumerates equal timestamps in rowid
order). -/
def latestMatching (l : List PingRow) : Option PingRow :=
  l.foldl (fun acc r =>
    match acc with
    | none => some r
    | some b => if b.ts ≤ r.ts then some r else some b) none

def recentPings (db : DB) (sid : Nat) (cutoff : Int) : List PingRow :=
  db.ping_status.filter (fun r => r.server_id == sid && decide (cutoff ≤ r.ts))

def get_server_health_status (db : DB) (sid : Nat) (now : Int) : String × String :=
  let row := latestMatching (recentPings db sid (now - 120))
  let warn_or_down :=
    if 0 < (db.ping_status.filter (fun r2 =>
        r2.server_id == sid && decide (now - 600 ≤ r2.ts) && r2.is_online == 1)).length
    then "warn" else "down"
  let ping_health :=
    match row with
    | some r => if r.is_online = 1 then "ok" else warn_or_down
    | none => warn_or_down
  let heartbeat_health :=
    if 0 < (db.heartbeat_status.filter (fun r =>
        r.server_id == sid && decide (now - 120 ≤ r.ts))).length
    then "ok" else "down"
  (ping_health, heartbeat_health)

/-! ## 24h status timeline (`get_24h_timeline`, db.py lines 297-339)

`AVG(is_online)` over an `INTEGER` column is exact rational arithmetic here
(SQLite computes a float; the stored values are 0/1 so the comparison against
0.8 agrees). -/

structure TimelineSlot where
  ping : Int
  heartbeat : Nat
deriving Repr, DecidableEq

/-- The body of the timeline loop (db.py lines 307-336) for slot `i`. -/
def timelineSlotAt (db : DB) (sid : Nat) (now : Int) (slots : Nat) (i : Nat) : TimelineSlot :=
  let start_time := now - 24 * 3600
  let slot_duration : Int := ((24 * 3600 : Nat) / slots : Nat)
  let slot_start := start_time + (i : Int) * slot_duration
  let slot_end := slot_start + slot_duration
  let rows := db.ping_status.filter (fun r =>
    r.server_id == sid && decide (slot_start ≤ r.ts) && decide (r.ts < slot_end))
  let ping : Int :=
    match rows with
    | [] => 0
    | _ =>
      let avg : ℚ := ((rows.map (fun r => (r.is_online : ℚ))).sum) / (rows.length : ℚ)
      if (0.8 : ℚ) ≤ avg then 1 else if 0 < avg then -1 else 0
  let hb := (db.heartbeat_status.filter (fun r =>
    r.server_id == sid && decide (slot_start ≤ r.ts) && decide (r.ts < slot_end))).length
  { ping := ping, heartbeat := if 0 < hb then 1 else 0 }

def get_24h_timeline (db : DB) (sid : Nat) (now : Int) (slots : Nat) : List TimelineSlot :=
  (List.range slots).map (timelineSlotAt db sid now slots)

/-! ## 24h resource series (`get_server_resource_series`, db.py lines 365-426)

`slot_duration = total_seconds / points` is a Python float; it is modelled as
the exact rational (the spec's real-valued bucket width).  `int(x // y)` on
non-negative operands is the rational floor.  The per-index bucket array is
modelled as a function `Nat → ResBucket` updated at the computed index. -/

structure SeriesPoint where
  ts : Int
  cpu : Option ℚ
  mem : Option ℚ
deriving Repr, DecidableEq

structure ResBucket where
  cpu_sum : ℚ
  cpu_count : Nat
  mem_sum : ℚ
  mem_count : Nat
deriving Repr, DecidableEq

def emptyResBucket : ResBucket := ⟨0, 0, 0, 0⟩

def resBucketAdd (b : ResBucket) (r : HeartbeatRow) : ResBucket :=
  let b1 :=
    match r.cpu_load with
    | some c => { b with cpu_sum := b.cpu_sum + c, cpu_count := b.cpu_count + 1 }
    | none => b
  match r.mem_load with
  | some m => { b1 with mem_sum := b1.mem_sum + m, mem_count := b1.mem_count + 1 }
  | none => b1

/-- `idx = int((ts - start_time) // slot_duration)`, then `continue` on
`idx < 0` (`none`) and clamp `idx >= points` to `points - 1`. -/
def seriesIdx (start_time : Int) (slot_duration : ℚ) (points : Nat) (ts : Int) : Option Nat :=
  let idx : Int := ⌊((ts - start_time : Int) : ℚ) / slot_duration⌋
  if idx < 0 then none
  else if (points : Int) ≤ idx then some (points - 1)
  else some idx.toNat

/-- The aggregation loop of db.py lines 392-409: fold the fetched rows into
the per-index bucket array. -/
def resBucketsFold (start_time : Int) (slot_duration : ℚ) (points : Nat)
    (rows : List HeartbeatRow) : Nat → ResBucket :=
  rows.foldl (fun bs r =>
    match seriesIdx start_time slot_duration points r.ts with
    | none => bs
    | some idx => fun j => if j = idx then resBucketAdd (bs j) r else bs j)
    (fun _ => emptyResBucket)

def get_server_resource_series (db : DB) (sid : Nat) (now : Int) (points : Nat) :
    List SeriesPoint :=
  let start_time := now - 24 * 3600
  let slot_duration : ℚ := (24 * 3600 : ℚ) / (points : ℚ)
  let rows := (db.heartbeat_status.filter (fun r =>
      r.server_id == sid && decide (start_time ≤ r.ts))).mergeSort
      (fun a b => decide (a.ts ≤ b.ts))
  let buckets : Nat → ResBucket := resBucketsFold start_time slot_duration points rows
  (List.range points).map (fun i =>
    let b := buckets i
    { ts := start_time + ⌊(i : ℚ) * slot_duration⌋,
      cpu := if 0 < b.cpu_count then some (b.cpu_sum / (b.cpu_count : ℚ)) else none,
      mem := if 0 < b.mem_count then some (b.mem_sum / (b.mem_count : ℚ)) else none })

/-! ## Registry lemmas and claims C3, C4, C10 -/

theorem resolve_found_with_ip (db : DB) (X a : String) (now : Int) (nid : Nat) (r : ServerRow)
    (hfind : db.servers.find? (fun s => s.name == X) = some r) :
    get_or_create_server db none (some X) (some a) now nid
      = (some r, { db with servers := updateServerIp db.servers r.id a now }) := by
  simp only [get_or_create_server, hfind]

theorem resolve_found_no_ip (db : DB) (X : String) (now : Int) (nid : Nat) (r : ServerRow)
    (hfind : db.servers.find? (fun s => s.name == X) = some r) :
    get_or_create_server db none (some X) none now nid = (some r, db) := by
  simp only [get_or_create_server, hfind]

theorem resolve_create (db : DB) (X : String) (ipo : Option String) (now : Int) (nid : Nat)
    (hfind : db.servers.find? (fun s => s.name == X) = none) :
    get_or_create_server db none (some X) ipo now nid
      = (some { id := nid, name := X, ip := ipo.getD "unknown", created_at := now,
                updated_at := now, remark := none },
         { db with servers := db.servers ++
            [{ id := nid, name := X, ip := ipo.getD "unknown", created_at := now,
               updated_at := now, remark := none }] }) := by
  simp only [get_or_create_server, hfind]

theorem updateServerIp_map_id (servers : List ServerRow) (sid : Nat) (newIp : String)
    (now : Int) :
    (updateServerIp servers sid newIp now).map (fun s => s.id) = servers.map (fun s => s.id) := by
  unfold updateServerIp
  rw [List.map_map]
  refine List.map_congr_left (fun s _ => ?_)
  by_cases h : s.id = sid <;> simp [h]

theorem updateServerIp_sets_ip (servers : List ServerRow) (sid : Nat) (newIp : String)
    (now : Int) :
    ∀ x ∈ updateServerIp servers sid newIp now,
      x.id = sid → x.ip = newIp ∧ x.updated_at = now := by
  intro x hx hid
  unfold updateServerIp at hx
  obtain ⟨y, hy, rfl⟩ := List.mem_map.mp hx
  by_cases h : y.id = sid
  · simp [h]
  · simp only [if_neg h] at hid ⊢
    exact absurd hid h

theorem updateServerIp_mem_id (servers : List ServerRow) (sid : Nat) (newIp : String)
    (now : Int) (r : ServerRow) (hr : r ∈ servers) (hid : r.id = sid) :
    ∃ x ∈ updateServerIp servers sid newIp now, x.id = sid := by
  refine ⟨if r.id = sid then { r with ip := newIp, updated_at := now } else r,
    List.mem_map_of_mem _ hr, ?_⟩
  simp [hid]

/-- C3 counterexample: on an empty registry, a lookup with a supplied identity
(5) that matches nothing but with a name also supplied does NOT return
NotFound — it creates and returns a brand-new server row, contradicting the
claim that an identity miss yields NotFound regardless of the other
arguments. -/
theorem identity_miss_with_name_creates_counterexample :
    (get_or_create_server emptyDB (some 5) (some "X") none 100 42).1
        = some { id := 42, name := "X", ip := "unknown", created_at := 100,
                 updated_at := 100, remark := none } ∧
      (get_or_create_server emptyDB (some 5) (some "X") none 100 42).2.servers.length = 1 := by
  constructor <;> rfl

/-- C3 (amended): when a supplied server identity matches no stored server and
no name is supplied, the result is NotFound and the store is unchanged; when a
name is also supplied, the call falls back to name-based resolution (which may
create a row) exactly as if no identity had been supplied. -/
theorem identity_miss_falls_back_to_name (db : DB) (sid : Nat) (ip : Option String)
    (now : Int) (new_id : Nat)
    (h : db.servers.find? (fun r => r.id == sid) = none) :
    get_or_create_server db (some sid) none ip now new_id = (none, db) ∧
      ∀ name : String, get_or_create_server db (some sid) (some name) ip now new_id
        = get_or_create_server db none (some name) ip now new_id := by
  constructor
  · simp only [get_or_create_server, h]
  · intro name
    simp only [get_or_create_server, h]

/-- Witness for C3's amended theorem on a concrete one-row store. -/
theorem identity_miss_falls_back_to_name_witness :
    get_or_create_server ⟨[⟨7, "a", "1.1.1.1", 0, 0, none⟩], [], []⟩ (some 5) none none 3 9
        = (none, ⟨[⟨7, "a", "1.1.1.1", 0, 0, none⟩], [], []⟩) ∧
      ∀ name : String,
        get_or_create_server ⟨[⟨7, "a", "1.1.1.1", 0, 0, none⟩], [], []⟩ (some 5) (some name)
            none 3 9
          = get_or_create_server ⟨[⟨7, "a", "1.1.1.1", 0, 0, none⟩], [], []⟩ none (some name)
            none 3 9 :=
  identity_miss_falls_back_to_name ⟨[⟨7, "a", "1.1.1.1", 0, 0, none⟩], [], []⟩ 5 none 3 9
    (by decide)

/-- Any name-based resolution returns a row, and afterwards a lookup of that
name finds a stored row carrying the same identity. -/
theorem resolve_name_spec (db : DB) (X : String) (ipo : Option String) (now : Int) (nid : Nat) :
    ∃ r r' : ServerRow, (get_or_create_server db none (some X) ipo now nid).1 = some r ∧
      (get_or_create_server db none (some X) ipo now nid).2.servers.find?
          (fun s => s.name == X) = some r' ∧ r'.id = r.id := by
  match hfind : db.servers.find? (fun s => s.name == X) with
  | some r =>
    match ipo with
    | none =>
      rw [resolve_found_no_ip db X now nid r hfind]
      exact ⟨r, r, rfl, hfind, rfl⟩
    | some a =>
      rw [resolve_found_with_ip db X a now nid r hfind]
      refine ⟨r, { r with ip := a, updated_at := now }, rfl, ?_, rfl⟩
      show (updateServerIp db.servers r.id a now).find?
        (fun s : ServerRow => s.name == X) = some _
      unfold updateServerIp
      rw [List.find?_map]
      have hp : ((fun s => s.name == X) ∘
          (fun s : ServerRow =>
            if s.id = r.id then { s with ip := a, updated_at := now } else s))
          = (fun s : ServerRow => s.name == X) := by
        funext s
        by_cases h : s.id = r.id <;> simp [h]
      rw [hp, hfind]
      simp
  | none =>
    rw [resolve_create db X ipo now nid hfind]
    refine ⟨_, _, rfl, ?_, rfl⟩
    show (db.servers ++ [_]).find? (fun s : ServerRow => s.name == X) = some _
    rw [List.find?_append, hfind]
    simp

/-- C4: resolving twice by the same name with no identity returns the same
server identity both times; a third call with a different source address
updates the stored address (and update timestamp) of that server but leaves
every stored identity unchanged. -/
theorem register_by_name_idempotent (db : DB) (X a : String)
    (now1 now2 now3 : Int) (id1 id2 id3 : Nat)
    (o1 o2 o3 : Option ServerRow × DB)
    (h1 : o1 = get_or_create_server db none (some X) none now1 id1)
    (h2 : o2 = get_or_create_server o1.2 none (some X) none now2 id2)
    (h3 : o3 = get_or_create_server o2.2 none (some X) (some a) now3 id3) :
    ∃ r1 r2 r3 : ServerRow, o1.1 = some r1 ∧ o2.1 = some r2 ∧ o3.1 = some r3 ∧
      r2.id = r1.id ∧ r3.id = r1.id ∧
      (∃ x ∈ o3.2.servers, x.id = r1.id) ∧
      (∀ x ∈ o3.2.servers, x.id = r1.id → x.ip = a ∧ x.updated_at = now3) ∧
      o3.2.servers.map (fun s => s.id) = o2.2.servers.map (fun s => s.id) := by
  obtain ⟨r1, r1', hr1, hfind1, hid1⟩ := resolve_name_spec db X none now1 id1
  have ho1 : o1.1 = some r1 := by rw [h1]; exact hr1
  have hfind1' : o1.2.servers.find? (fun s => s.name == X) = some r1' := by
    rw [h1]; exact hfind1
  have e2 : o2 = (some r1', o1.2) := by
    rw [h2]; exact resolve_found_no_ip o1.2 X now2 id2 r1' hfind1'
  have hfind2 : o2.2.servers.find? (fun s => s.name == X) = some r1' := by
    rw [e2]; exact hfind1'
  have e3 : o3 = (some r1',
      { o2.2 with servers := updateServerIp o2.2.servers r1'.id a now3 }) := by
    rw [h3]; exact resolve_found_with_ip o2.2 X a now3 id3 r1' hfind2
  refine ⟨r1, r1', r1', ho1, by rw [e2], by rw [e3], hid1, hid1, ?_, ?_, ?_⟩
  · rw [e3]
    obtain ⟨x, hx, hxid⟩ := updateServerIp_mem_id o2.2.servers r1'.id a now3 r1'
      (List.mem_of_find?_eq_some hfind2) rfl
    exact ⟨x, hx, hxid.trans hid1⟩
  · rw [e3]
    intro x hx hxid
    exact updateServerIp_sets_ip o2.2.servers r1'.id a now3 x hx (hxid.trans hid1.symm)
  · rw [e3]
    exact updateServerIp_map_id o2.2.servers r1'.id a now3

/-- Witness for C4 on the empty store. -/
theorem register_by_name_idempotent_witness :
    ∃ r1 r2 r3 : ServerRow,
      (get_or_create_server emptyDB none (some "X") none 1 11).1 = some r1 ∧
      (get_or_create_server (get_or_create_server emptyDB none (some "X") none 1 11).2
          none (some "X") none 2 12).1 = some r2 ∧
      (get_or_create_server (get_or_create_server
          (get_or_create_server emptyDB none (some "X") none 1 11).2
          none (some "X") none 2 12).2 none (some "X") (some "9.9.9.9") 3 13).1 = some r3 ∧
      r2.id = r1.id ∧ r3.id = r1.id ∧
      (∃ x ∈ (get_or_create_server (get_or_create_server
          (get_or_create_server emptyDB none (some "X") none 1 11).2
          none (some "X") none 2 12).2
          none (some "X") (some "9.9.9.9") 3 13).2.servers, x.id = r1.id) ∧
      (∀ x ∈ (get_or_create_server (get_or_create_server
          (get_or_create_server emptyDB none (some "X") none 1 11).2
          none (some "X") none 2 12).2
          none (some "X") (some "9.9.9.9") 3 13).2.servers,
        x.id = r1.id → x.ip = "9.9.9.9" ∧ x.updated_at = 3) ∧
      (get_or_create_server (get_or_create_server
          (get_or_create_server emptyDB none (some "X") none 1 11).2
          none (some "X") none 2 12).2
          none (some "X") (some "9.9.9.9") 3 13).2.servers.map (fun s => s.id)
        = (get_or_create_server (get_or_create_server emptyDB none (some "X") none 1 11).2
            none (some "X") none 2 12).2.servers.map (fun s => s.id) :=
  register_by_name_idempotent emptyDB "X" "9.9.9.9" 1 2 3 11 12 13 _ _ _ rfl rfl rfl

/-- C10: when name-based resolution finds an existing server and a source
address is supplied, the stored row gets the new address and update
timestamp (all its other fields untouched, every other row untouched, no
event table touched), but the record returned to the caller is the row as
read before the update — old address, old update timestamp. -/
theorem resolve_by_name_returns_stale_row (db : DB) (X a : String) (now : Int) (new_id : Nat)
    (r : ServerRow) (hfind : db.servers.find? (fun s => s.name == X) = some r) :
    r ∈ db.servers ∧ r.name = X ∧
      (get_or_create_server db none (some X) (some a) now new_id).1 = some r ∧
      (get_or_create_server db none (some X) (some a) now new_id).2.ping_status
        = db.ping_status ∧
      (get_or_create_server db none (some X) (some a) now new_id).2.heartbeat_status
        = db.heartbeat_status ∧
      (get_or_create_server db none (some X) (some a) now new_id).2.servers
        = db.servers.map
            (fun s => if s.id = r.id then { s with ip := a, updated_at := now } else s) := by
  have e := resolve_found_with_ip db X a now new_id r hfind
  refine ⟨List.mem_of_find?_eq_some hfind, ?_, by rw [e], by rw [e], by rw [e], by rw [e]; rfl⟩
  have := List.find?_some hfind
  simpa using this

/-- Witness for C10: a one-row store whose row gets a fresh address; the
caller still sees the old address `1.2.3.4` and old timestamp 10. -/
theorem resolve_by_name_returns_stale_row_witness :
    (⟨7, "X", "1.2.3.4", 10, 10, none⟩ : ServerRow)
        ∈ (⟨[⟨7, "X", "1.2.3.4", 10, 10, none⟩], [], []⟩ : DB).servers ∧
      (⟨7, "X", "1.2.3.4", 10, 10, none⟩ : ServerRow).name = "X" ∧
      (get_or_create_server ⟨[⟨7, "X", "1.2.3.4", 10, 10, none⟩], [], []⟩ none (some "X")
          (some "5.6.7.8") 99 123).1 = some ⟨7, "X", "1.2.3.4", 10, 10, none⟩ ∧
      (get_or_create_server ⟨[⟨7, "X", "1.2.3.4", 10, 10, none⟩], [], []⟩ none (some "X")
          (some "5.6.7.8") 99 123).2.ping_status
        = (⟨[⟨7, "X", "1.2.3.4", 10, 10, none⟩], [], []⟩ : DB).ping_status ∧
      (get_or_create_server ⟨[⟨7, "X", "1.2.3.4", 10, 10, none⟩], [], []⟩ none (some "X")
          (some "5.6.7.8") 99 123).2.heartbeat_status
        = (⟨[⟨7, "X", "1.2.3.4", 10, 10, none⟩], [], []⟩ : DB).heartbeat_status ∧
      (get_or_create_server ⟨[⟨7, "X", "1.2.3.4", 10, 10, none⟩], [], []⟩ none (some "X")
          (some "5.6.7.8") 99 123).2.servers
        = (⟨[⟨7, "X", "1.2.3.4", 10, 10, none⟩], [], []⟩ : DB).servers.map
            (fun s => if s.id = (⟨7, "X", "1.2.3.4", 10, 10, none⟩ : ServerRow).id
              then { s with ip := "5.6.7.8", updated_at := 99 } else s) :=
  resolve_by_name_returns_stale_row ⟨[⟨7, "X", "1.2.3.4", 10, 10, none⟩], [], []⟩ "X"
    "5.6.7.8" 99 123 ⟨7, "X", "1.2.3.4", 10, 10, none⟩ (by decide)

/-! ## Health classifier: claim C2 -/

theorem filter_length_pos_iff {α : Type} (p : α → Bool) (l : List α) :
    0 < (l.filter p).length ↔ ∃ x ∈ l, p x = true := by
  rw [List.length_pos_iff_exists_mem]
  constructor
  · rintro ⟨x, hx⟩
    rw [List.mem_filter] at hx
    exact ⟨x, hx.1, hx.2⟩
  · rintro ⟨x, hx, hp⟩
    exact ⟨x, List.mem_filter.mpr ⟨hx, hp⟩⟩

/-- C2: reachability is OK iff the most recent reachability event in the
120-second window is a success; otherwise WARN iff some success lies in the
600-second window; otherwise DOWN (in particular with no events at all);
reporting is OK iff some heartbeat lies in the 120-second window, DOWN
otherwise. -/
theorem health_status_characterization (db : DB) (sid : Nat) (now : Int) :
    ((get_server_health_status db sid now).1 = "ok" ↔
        ∃ r : PingRow, latestMatching (recentPings db sid (now - 120)) = some r ∧
          r.is_online = 1) ∧
      ((get_server_health_status db sid now).1 = "warn" ↔
        (¬ ∃ r : PingRow, latestMatching (recentPings db sid (now - 120)) = some r ∧
            r.is_online = 1) ∧
          ∃ r ∈ db.ping_status, r.server_id = sid ∧ now - 600 ≤ r.ts ∧ r.is_online = 1) ∧
      ((get_server_health_status db sid now).1 = "down" ↔
        (¬ ∃ r : PingRow, latestMatching (recentPings db sid (now - 120)) = some r ∧
            r.is_online = 1) ∧
          ¬ ∃ r ∈ db.ping_status, r.server_id = sid ∧ now - 600 ≤ r.ts ∧ r.is_online = 1) ∧
      ((get_server_health_status db sid now).2 = "ok" ↔
        ∃ r ∈ db.heartbeat_status, r.server_id = sid ∧ now - 120 ≤ r.ts) ∧
      ((get_server_health_status db sid now).2 = "down" ↔
        ¬ ∃ r ∈ db.heartbeat_status, r.server_id = sid ∧ now - 120 ≤ r.ts) := by
  have hwarn : (∃ r ∈ db.ping_status, r.server_id = sid ∧ now - 600 ≤ r.ts ∧ r.is_online = 1)
      ↔ 0 < (db.ping_status.filter (fun r2 =>
        r2.server_id == sid && decide (now - 600 ≤ r2.ts) && r2.is_online == 1)).length := by
    rw [filter_length_pos_iff]
    constructor
    · rintro ⟨x, hx, h1, h2, h3⟩
      exact ⟨x, hx, by simp [h1, h2, h3]⟩
    · rintro ⟨x, hx, hp⟩
      simp only [Bool.and_eq_true, beq_iff_eq, decide_eq_true_eq] at hp
      exact ⟨x, hx, hp.1.1, hp.1.2, hp.2⟩
  have hhb : (∃ r ∈ db.heartbeat_status, r.server_id = sid ∧ now - 120 ≤ r.ts)
      ↔ 0 < (db.heartbeat_status.filter (fun r =>
        r.server_id == sid && decide (now - 120 ≤ r.ts))).length := by
    rw [filter_length_pos_iff]
    constructor
    · rintro ⟨x, hx, h1, h2⟩
      exact ⟨x, hx, by simp [h1, h2]⟩
    · rintro ⟨x, hx, hp⟩
      simp only [Bool.and_eq_true, beq_iff_eq, decide_eq_true_eq] at hp
      exact ⟨x, hx, hp.1, hp.2⟩
  simp only [get_server_health_status]
  refine ⟨?_, ?_, ?_, ?_, ?_⟩ <;> (repeat' split) <;> simp_all [hwarn, hhb]

/-! ## Reachability prober: claim C8 -/

/-- A failed probe: the ping subprocess raised (timeout, tool fault) or
completed with a non-zero exit status. -/
def probeFailed (o : ProbeOutcome) : Prop :=
  o = .raised ∨ ∃ rc m, o = .completed rc m ∧ rc ≠ 0

theorem pingRowFor_server_id (i : Nat) (s : ServerRow) (o : ProbeOutcome) (now : Int) :
    (pingRowFor i s o now).server_id = s.id := by
  cases o with
  | completed rc m => by_cases h : rc = 0 <;> simp [pingRowFor, h]
  | raised => rfl

theorem pingRowFor_ts (i : Nat) (s : ServerRow) (o : ProbeOutcome) (now : Int) :
    (pingRowFor i s o now).ts = now := by
  cases o with
  | completed rc m => by_cases h : rc = 0 <;> simp [pingRowFor, h]
  | raised => rfl

/-- C8: one probe cycle appends exactly one reachability event per registered
server (their server ids are a permutation of the registry's ids, so a failed
probe never suppresses the remaining servers' records), touches nothing else,
and a failed probe records reachable=false with no latency while a successful
one records reachable=true with the parsed latency. -/
theorem ping_cycle_records_every_server (db : DB) (now : Int)
    (probe : ServerRow → ProbeOutcome) (idSupply : Nat → Nat) :
    ∃ new : List PingRow,
      (ping_and_record db now probe idSupply).ping_status = db.ping_status ++ new ∧
      (new.map (fun e => e.server_id)).Perm (db.servers.map (fun s => s.id)) ∧
      (ping_and_record db now probe idSupply).servers = db.servers ∧
      (ping_and_record db now probe idSupply).heartbeat_status = db.heartbeat_status ∧
      ∀ e ∈ new, e.ts = now ∧ ∃ s ∈ db.servers, e.server_id = s.id ∧
        (probeFailed (probe s) → e.is_online = 0 ∧ e.latency_ms = none) ∧
        (∀ m, probe s = .completed 0 m → e.is_online = 1 ∧ e.latency_ms = m) := by
  have hperm : (get_all_servers db).Perm db.servers := List.mergeSort_perm _ _
  by_cases hemp : (get_all_servers db).isEmpty
  · refine ⟨[], ?_, ?_, ?_, ?_, ?_⟩
    · simp [ping_and_record, hemp]
    · have : get_all_servers db = [] := List.isEmpty_iff.mp hemp
      have h2 : db.servers = [] := (this ▸ hperm).symm.eq_nil
      simp [h2]
    · simp [ping_and_record, hemp]
    · simp [ping_and_record, hemp]
    · intro e he
      exact absurd he (List.not_mem_nil e)
  · refine ⟨(get_all_servers db).enum.map
      (fun p => pingRowFor (idSupply p.1) p.2 (probe p.2) now), ?_, ?_, ?_, ?_, ?_⟩
    · simp [ping_and_record, hemp]
    · have hmap : ((get_all_servers db).enum.map
          (fun p => pingRowFor (idSupply p.1) p.2 (probe p.2) now)).map
            (fun e => e.server_id)
          = (get_all_servers db).map (fun s => s.id) := by
        rw [List.map_map]
        have hc : ((fun e : PingRow => e.server_id) ∘
            fun p : Nat × ServerRow => pingRowFor (idSupply p.1) p.2 (probe p.2) now)
            = ((fun s : ServerRow => s.id) ∘ Prod.snd) := by
          funext p
          simp [pingRowFor_server_id]
        rw [hc, ← List.map_map, List.enum_map_snd]
      rw [hmap]
      exact hperm.map _
    · simp [ping_and_record, hemp]
    · simp [ping_and_record, hemp]
    · intro e he
      obtain ⟨p, hp, rfl⟩ := List.mem_map.mp he
      have hs : p.2 ∈ get_all_servers db := by
        have := List.mem_map_of_mem Prod.snd hp
        rwa [List.enum_map_snd] at this
      refine ⟨pingRowFor_ts _ _ _ _, p.2, hperm.mem_iff.mp hs, pingRowFor_server_id _ _ _ _,
        ?_, ?_⟩
      · intro hf
        rcases hf with hr | ⟨rc, m, hc, hrc⟩
        · rw [hr]
          exact ⟨rfl, rfl⟩
        · rw [hc]
          simp [pingRowFor, hrc]
      · intro m hm
        rw [hm]
        simp [pingRowFor]

/-! ## Core-operation traces: claim C9

A trace of the write-side core operations (`get_or_create_server`,
`record_heartbeat`, `ping_and_record`), each applied to the state left by the
previous one.  The per-call clock reading and freshly generated snowflake ids
are carried in the operation. -/

inductive Op where
  | resolve (server_id : Option Nat) (server_name : Option String) (ip : Option String)
      (now : Int) (new_id : Nat)
  | heartbeat (server_id : Option Nat) (server_name : Option String)
      (up_bytes down_bytes : Option Int) (cpu_load mem_load : Option ℚ)
      (client_ip raw_json : Option String) (now : Int) (new_server_id hb_id : Nat)
  | pingCycle (probe : ServerRow → ProbeOutcome) (idSupply : Nat → Nat) (now : Int)

def execOp (db : DB) : Op → DB
  | .resolve sid name ip now nid => (get_or_create_server db sid name ip now nid).2
  | .heartbeat sid name up down cpu mem cip raw now nsid hbid =>
      (record_heartbeat db sid name up down cpu mem cip raw now nsid hbid).2
  | .pingCycle probe ids now => ping_and_record db now probe ids

def execOps (db : DB) (ops : List Op) : DB := ops.foldl execOp db

theorem resolve_byId_found (db : DB) (sid : Nat) (r : ServerRow)
    (h : db.servers.find? (fun x => x.id == sid) = some r)
    (name : Option String) (ip : Option String) (now : Int) (nid : Nat) :
    get_or_create_server db (some sid) name ip now nid = (some r, db) := by
  simp only [get_or_create_server, h]

theorem resolve_byId_miss (db : DB) (sid : Nat)
    (h : db.servers.find? (fun x => x.id == sid) = none)
    (name : Option String) (ip : Option String) (now : Int) (nid : Nat) :
    get_or_create_server db (some sid) name ip now nid
      = get_or_create_server db none name ip now nid := by
  simp only [get_or_create_server, h]

theorem resolve_no_name (db : DB) (ip : Option String) (now : Int) (nid : Nat) :
    get_or_create_server db none none ip now nid = (none, db) := by
  simp only [get_or_create_server]

theorem updateServerIp_map_name (servers : List ServerRow) (sid : Nat) (newIp : String)
    (now : Int) :
    (updateServerIp servers sid newIp now).map (fun s => s.name)
      = servers.map (fun s => s.name) := by
  unfold updateServerIp
  rw [List.map_map]
  refine List.map_congr_left (fun s _ => ?_)
  by_cases h : s.id = sid <;> simp [h]

theorem updateServerIp_persist (servers : List ServerRow) (sid : Nat) (newIp : String)
    (now : Int) (r : ServerRow) (hr : r ∈ servers) :
    ∃ r' ∈ updateServerIp servers sid newIp now,
      r'.id = r.id ∧ r'.name = r.name ∧ r'.created_at = r.created_at ∧
        r'.remark = r.remark := by
  refine ⟨if r.id = sid then { r with ip := newIp, updated_at := now } else r,
    List.mem_map_of_mem _ hr, ?_⟩
  by_cases h : r.id = sid <;> simp [h]

/-- The servers table after `get_or_create_server`: unchanged, one address
refresh, or one appended row whose name was previously absent. -/
theorem get_or_create_none_servers_cases (db : DB) (name : Option String)
    (ip : Option String) (now : Int) (nid : Nat) :
    (get_or_create_server db none name ip now nid).2.servers = db.servers
    ∨ (∃ i a, (get_or_create_server db none name ip now nid).2.servers
        = updateServerIp db.servers i a now)
    ∨ (∃ X, db.servers.find? (fun s => s.name == X) = none ∧
        ∃ row : ServerRow, row.name = X ∧
          (get_or_create_server db none name ip now nid).2.servers
            = db.servers ++ [row]) := by
  cases name with
  | none => rw [resolve_no_name]; left; rfl
  | some X =>
    match hfind : db.servers.find? (fun s => s.name == X) with
    | some r =>
      cases ip with
      | none => rw [resolve_found_no_ip db X now nid r hfind]; left; rfl
      | some a =>
        rw [resolve_found_with_ip db X a now nid r hfind]
        right; left
        exact ⟨r.id, a, rfl⟩
    | none =>
      rw [resolve_create db X ip now nid hfind]
      right; right
      exact ⟨X, hfind,
        { id := nid, name := X, ip := ip.getD "unknown", created_at := now,
          updated_at := now, remark := none }, rfl, rfl⟩

theorem get_or_create_servers_cases (db : DB) (sid : Option Nat) (name : Option String)
    (ip : Option String) (now : Int) (nid : Nat) :
    (get_or_create_server db sid name ip now nid).2.servers = db.servers
    ∨ (∃ i a, (get_or_create_server db sid name ip now nid).2.servers
        = updateServerIp db.servers i a now)
    ∨ (∃ X, db.servers.find? (fun s => s.name == X) = none ∧
        ∃ row : ServerRow, row.name = X ∧
          (get_or_create_server db sid name ip now nid).2.servers
            = db.servers ++ [row]) := by
  cases sid with
  | none => exact get_or_create_none_servers_cases db name ip now nid
  | some s =>
    match hbyid : db.servers.find? (fun x => x.id == s) with
    | some r => rw [resolve_byId_found db s r hbyid name ip now nid]; left; rfl
    | none =>
      rw [resolve_byId_miss db s hbyid name ip now nid]
      exact get_or_create_none_servers_cases db name ip now nid

theorem record_heartbeat_servers (db : DB) (sid : Option Nat) (name : Option String)
    (up down : Option Int) (cpu mem : Option ℚ) (cip raw : Option String) (now : Int)
    (nsid hbid : Nat) :
    (record_heartbeat db sid name up down cpu mem cip raw now nsid hbid).2.servers
      = (get_or_create_server db sid name cip now nsid).2.servers := by
  unfold record_heartbeat
  match hg : get_or_create_server db sid name cip now nsid with
  | (none, db1) => rfl
  | (some server, db1) => rfl

theorem ping_and_record_servers (db : DB) (now : Int) (probe : ServerRow → ProbeOutcome)
    (idSupply : Nat → Nat) : (ping_and_record db now probe idSupply).servers = db.servers := by
  by_cases h : (get_all_servers db).isEmpty <;> simp [ping_and_record, h]

theorem execOp_servers_cases (db : DB) (op : Op) :
    (execOp db op).servers = db.servers
    ∨ (∃ i a now2, (execOp db op).servers = updateServerIp db.servers i a now2)
    ∨ (∃ X, db.servers.find? (fun s => s.name == X) = none ∧
        ∃ row : ServerRow, row.name = X ∧ (execOp db op).servers = db.servers ++ [row]) := by
  cases op with
  | resolve sid name ip now nid =>
    rcases get_or_create_servers_cases db sid name ip now nid with h | ⟨i, a, h⟩ | h
    · exact Or.inl h
    · exact Or.inr (Or.inl ⟨i, a, now, h⟩)
    · exact Or.inr (Or.inr h)
  | heartbeat sid name up down cpu mem cip raw now nsid hbid =>
    have e := record_heartbeat_servers db sid name up down cpu mem cip raw now nsid hbid
    rcases get_or_create_servers_cases db sid name cip now nsid with h | ⟨i, a, h⟩ | h
    · exact Or.inl (by rw [execOp, e, h])
    · exact Or.inr (Or.inl ⟨i, a, now, by rw [execOp, e, h]⟩)
    · obtain ⟨X, hX, row, hrow, hserv⟩ := h
      exact Or.inr (Or.inr ⟨X, hX, row, hrow, by rw [execOp, e, hserv]⟩)
  | pingCycle probe ids now =>
    exact Or.inl (ping_and_record_servers db now probe ids)

theorem find?_name_none_not_mem (servers : List ServerRow) (X : String)
    (h : servers.find? (fun s => s.name == X) = none) :
    X ∉ servers.map (fun s => s.name) := by
  intro hmem
  obtain ⟨s, hs, hname⟩ := List.mem_map.mp hmem
  have := List.find?_eq_none.mp h s hs
  simp [hname] at this

theorem execOp_nodup (db : DB) (op : Op)
    (h : (db.servers.map (fun s => s.name)).Nodup) :
    ((execOp db op).servers.map (fun s => s.name)).Nodup := by
  rcases execOp_servers_cases db op with he | ⟨i, a, now2, he⟩ | ⟨X, hX, row, hrow, he⟩
  · rwa [he]
  · rwa [he, updateServerIp_map_name]
  · rw [he, List.map_append]
    rw [List.nodup_append]
    refine ⟨h, List.nodup_singleton _, ?_⟩
    intro x hx hx2
    rw [List.mem_map] at hx2
    obtain ⟨s, hs, hname⟩ := hx2
    rw [List.mem_singleton.mp hs, hrow] at hname
    exact find?_name_none_not_mem db.servers X hX (hname ▸ hx)

theorem execOp_persist (db : DB) (op : Op) (r : ServerRow) (hr : r ∈ db.servers) :
    ∃ r' ∈ (execOp db op).servers,
      r'.id = r.id ∧ r'.name = r.name ∧ r'.created_at = r.created_at ∧
        r'.remark = r.remark := by
  rcases execOp_servers_cases db op with he | ⟨i, a, now2, he⟩ | ⟨X, hX, row, hrow, he⟩
  · exact ⟨r, he ▸ hr, rfl, rfl, rfl, rfl⟩
  · rw [he]
    exact updateServerIp_persist db.servers i a now2 r hr
  · exact ⟨r, he ▸ List.mem_append_left _ hr, rfl, rfl, rfl, rfl⟩

theorem execOps_nodup (ops : List Op) : ∀ db : DB,
    (db.servers.map (fun s => s.name)).Nodup →
    ((execOps db ops).servers.map (fun s => s.name)).Nodup := by
  induction ops with
  | nil => intro db h; exact h
  | cons op ops ih =>
    intro db h
    exact ih (execOp db op) (execOp_nodup db op h)

theorem execOps_persist (ops : List Op) : ∀ (db : DB) (r : ServerRow), r ∈ db.servers →
    ∃ r' ∈ (execOps db ops).servers,
      r'.id = r.id ∧ r'.name = r.name ∧ r'.created_at = r.created_at ∧
        r'.remark = r.remark := by
  induction ops with
  | nil => intro db r hr; exact ⟨r, hr, rfl, rfl, rfl, rfl⟩
  | cons op ops ih =>
    intro db r hr
    obtain ⟨r1, hr1, h1, h2, h3, h4⟩ := execOp_persist db op r hr
    obtain ⟨r2, hr2, g1, g2, g3, g4⟩ := ih (execOp db op) r1 hr1
    exact ⟨r2, hr2, g1.trans h1, g2.trans h2, g3.trans h3, g4.trans h4⟩

/-- C9: from empty storage, every trace of core operations leaves the server
table with pairwise-distinct names, and once a row exists, every further
trace still contains a row with the same identity carrying the same name
(and creation timestamp and note) — identities are never rewritten. -/
theorem server_table_invariant (ops : List Op) :
    ((execOps emptyDB ops).servers.map (fun s => s.name)).Nodup ∧
      ∀ (more : List Op), ∀ r ∈ (execOps emptyDB ops).servers,
        ∃ r' ∈ (execOps (execOps emptyDB ops) more).servers,
          r'.id = r.id ∧ r'.name = r.name ∧ r'.created_at = r.created_at ∧
            r'.remark = r.remark :=
  ⟨execOps_nodup ops emptyDB (by simp [emptyDB]),
   fun more r hr => execOps_persist more (execOps emptyDB ops) r hr⟩

/-! ## 24h timeline: claim C1 -/

theorem sum_online_eq_count (l : List PingRow)
    (h : ∀ r ∈ l, r.is_online = 0 ∨ r.is_online = 1) :
    (l.map (fun r => (r.is_online : ℚ))).sum
      = (((l.filter (fun r => r.is_online == 1)).length : Nat) : ℚ) := by
  induction l with
  | nil => simp
  | cons x xs ih =>
    have hx := h x (List.mem_cons_self _ _)
    have hxs : ∀ r ∈ xs, r.is_online = 0 ∨ r.is_online = 1 :=
      fun r hr => h r (List.mem_cons_of_mem _ hr)
    rw [List.map_cons, List.sum_cons, List.filter_cons, ih hxs]
    rcases hx with h0 | h1
    · simp [h0]
    · simp only [h1, beq_self_eq_true, if_true, List.length_cons]
      push_cast
      ring

theorem timeline_get? (db : DB) (sid : Nat) (now : Int) (slots i : Nat) (hi : i < slots) :
    (get_24h_timeline db sid now slots).get? i = some (timelineSlotAt db sid now slots i) := by
  rw [get_24h_timeline, List.get?_map, List.get?_range hi]
  rfl

/-- C1 counterexample: one reachability event (reachable=false) inside bucket
0 of the 24h timeline.  The claim requires pingState = Partial(-1) for a
bucket whose events are all unreachable; the code leaves pingState = 0
(NoData). -/
theorem timeline_all_offline_counterexample :
    ((get_24h_timeline ⟨[], [⟨1, 7, 0, 0, none⟩], []⟩ 7 86400 288).get? 0
        = some { ping := 0, heartbeat := 0 })
      ∧ ((⟨[], [⟨1, 7, 0, 0, none⟩], []⟩ : DB).ping_status.filter (fun r =>
          r.server_id == 7 && decide ((0 : Int) ≤ r.ts) && decide (r.ts < 300))).length = 1
      ∧ (∀ r ∈ (⟨[], [⟨1, 7, 0, 0, none⟩], []⟩ : DB).ping_status, r.is_online = 0)
      ∧ (0 : Int) ≠ -1 := by
  refine ⟨?_, by decide, by decide, by decide⟩
  rw [timeline_get? _ 7 86400 288 0 (by norm_num)]
  have : timelineSlotAt ⟨[], [⟨1, 7, 0, 0, none⟩], []⟩ 7 86400 288 0
      = { ping := 0, heartbeat := 0 } := by
    simp only [timelineSlotAt]
    norm_num [List.filter_cons, List.filter_nil]
  rw [this]

/-- C1 (amended): for the 24h timeline with 288 buckets, a bucket's pingState
is Ok(1) iff the bucket contains events and the fraction of reachable ones is
≥ 0.8; Partial(-1) iff it contains at least one reachable event and the
fraction is < 0.8; and NoData(0) iff it contains no events at all or only
unreachable ones (a bucket of only failures reads 0, not -1). -/
theorem timeline_bucket_characterization (db : DB) (sid : Nat) (now : Int) (i : Nat)
    (hi : i < 288)
    (hvals : ∀ r ∈ db.ping_status, r.is_online = 0 ∨ r.is_online = 1)
    (inR : List PingRow)
    (hinR : inR = db.ping_status.filter (fun r =>
      r.server_id == sid && decide (now - 86400 + (i : Int) * 300 ≤ r.ts)
        && decide (r.ts < now - 86400 + (i : Int) * 300 + 300)))
    (onl : Nat) (honl : onl = (inR.filter (fun r => r.is_online == 1)).length) :
    ∃ slot : TimelineSlot, (get_24h_timeline db sid now 288).get? i = some slot ∧
      (slot.ping = 1 ↔ inR.length ≠ 0 ∧ (0.8 : ℚ) ≤ (onl : ℚ) / (inR.length : ℚ)) ∧
      (slot.ping = -1 ↔ 0 < onl ∧ (onl : ℚ) / (inR.length : ℚ) < (0.8 : ℚ)) ∧
      (slot.ping = 0 ↔ inR.length = 0 ∨ onl = 0) := by
  refine ⟨timelineSlotAt db sid now 288 i, timeline_get? db sid now 288 i hi, ?_⟩
  have e1 : (((24 * 3600 : Nat) / 288 : Nat) : Int) = 300 := by norm_num
  have e2 : (24 * 3600 : Int) = 86400 := by norm_num
  have hvals' : ∀ r ∈ inR, r.is_online = 0 ∨ r.is_online = 1 := by
    intro r hr
    rw [hinR] at hr
    exact hvals r (List.mem_of_mem_filter hr)
  have hsum := sum_online_eq_count inR hvals'
  have hrows : db.ping_status.filter (fun r =>
      r.server_id == sid
        && decide (now - 24 * 3600 + (i : Int) * (((24 * 3600 : Nat) / 288 : Nat) : Int) ≤ r.ts)
        && decide (r.ts < now - 24 * 3600 + (i : Int) * (((24 * 3600 : Nat) / 288 : Nat) : Int)
            + (((24 * 3600 : Nat) / 288 : Nat) : Int))) = inR := by
    rw [hinR]
    norm_num
  have hping : (timelineSlotAt db sid now 288 i).ping
      = (match inR with
        | [] => (0 : Int)
        | _ => if (0.8 : ℚ) ≤ (onl : ℚ) / (inR.length : ℚ) then 1
            else if 0 < (onl : ℚ) / (inR.length : ℚ) then -1 else 0) := by
    simp only [timelineSlotAt]
    rw [hrows]
    cases inR with
    | nil => rfl
    | cons x xs => rw [hsum, ← honl]
  rw [hping]
  cases inR with
  | nil =>
    have honl0 : onl = 0 := by rw [honl]; rfl
    subst honl0
    norm_num
  | cons x xs =>
    have hlenpos : (0 : ℚ) < (((x :: xs).length : Nat) : ℚ) := by
      have : 0 < (x :: xs).length := List.length_pos_of_ne_nil (by simp)
      exact_mod_cast this
    have hlen0 : ((x :: xs).length ≠ 0) := by simp
    have hposiff : (0 : ℚ) < (onl : ℚ) / (((x :: xs).length : Nat) : ℚ) ↔ 0 < onl := by
      rw [div_pos_iff]
      constructor
      · rintro (⟨h1, -⟩ | ⟨-, h2⟩)
        · exact_mod_cast h1
        · exact absurd h2 (not_lt.mpr (le_of_lt hlenpos))
      · intro h
        exact Or.inl ⟨by exact_mod_cast h, hlenpos⟩
    by_cases hge : (0.8 : ℚ) ≤ (onl : ℚ) / (((x :: xs).length : Nat) : ℚ)
    · have honlpos : 0 < onl := by
        rw [← hposiff]
        calc (0 : ℚ) < 0.8 := by norm_num
        _ ≤ _ := hge
      rw [if_pos hge]
      refine ⟨iff_of_true rfl ⟨hlen0, hge⟩, iff_of_false (by norm_num) ?_,
        iff_of_false (by norm_num) ?_⟩
      · rintro ⟨-, hlt⟩
        exact absurd hge (not_le.mpr hlt)
      · rintro (h | h)
        · exact hlen0 h
        · omega
    · rw [if_neg hge]
      by_cases hpos : (0 : ℚ) < (onl : ℚ) / (((x :: xs).length : Nat) : ℚ)
      · rw [if_pos hpos]
        refine ⟨iff_of_false (by norm_num) (fun h2 => hge h2.2),
          iff_of_true rfl ⟨hposiff.mp hpos, not_le.mp hge⟩,
          iff_of_false (by norm_num) ?_⟩
        rintro (h | h)
        · exact hlen0 h
        · have := hposiff.mp hpos
          omega
      · rw [if_neg hpos]
        have honl0 : onl = 0 := by
          by_contra hne
          exact hpos (hposiff.mpr (Nat.pos_of_ne_zero hne))
        refine ⟨iff_of_false (by norm_num) (fun h2 => hge h2.2),
          iff_of_false (by norm_num) (fun h2 => by have := h2.1; omega),
          iff_of_true rfl (Or.inr honl0)⟩

/-- Witness for C1's amended theorem: one reachable event in bucket 0 gives
Ok(1). -/
theorem timeline_bucket_characterization_witness :
    ∃ slot : TimelineSlot,
      (get_24h_timeline ⟨[], [⟨1, 7, 0, 1, none⟩], []⟩ 7 86400 288).get? 0 = some slot ∧
      (slot.ping = 1 ↔ ([⟨1, 7, 0, 1, none⟩] : List PingRow).length ≠ 0 ∧
        (0.8 : ℚ) ≤ ((1 : Nat) : ℚ) / (([⟨1, 7, 0, 1, none⟩] : List PingRow).length : ℚ)) ∧
      (slot.ping = -1 ↔ 0 < (1 : Nat) ∧
        ((1 : Nat) : ℚ) / (([⟨1, 7, 0, 1, none⟩] : List PingRow).length : ℚ) < (0.8 : ℚ)) ∧
      (slot.ping = 0 ↔ ([⟨1, 7, 0, 1, none⟩] : List PingRow).length = 0 ∨ (1 : Nat) = 0) :=
  timeline_bucket_characterization ⟨[], [⟨1, 7, 0, 1, none⟩], []⟩ 7 86400 0 (by norm_num)
    (by decide) [⟨1, 7, 0, 1, none⟩] (by decide) 1 (by decide)

/-! ## 24h resource series: claim C5 -/

/-- The bucket index as the spec words it: `floor((eventTime - windowStart) /
bucketWidth)` with real-valued `bucketWidth = windowSeconds / pointCount`,
clamped to at most `pointCount - 1` (for events at/after the window start). -/
def specIdx (now : Int) (points : Nat) (ts : Int) : Nat :=
  min (points - 1) (⌊((ts - (now - 86400) : Int) : ℚ) / ((86400 : ℚ) / (points : ℚ))⌋).toNat

theorem seriesIdx_eq_spec (now : Int) (points : Nat) (ts : Int) (hp : 0 < points)
    (hts : now - 86400 ≤ ts) :
    seriesIdx (now - 86400) ((86400 : ℚ) / (points : ℚ)) points ts
      = some (specIdx now points ts) := by
  have hw : (0 : ℚ) < (86400 : ℚ) / (points : ℚ) := by
    apply div_pos (by norm_num)
    exact_mod_cast hp
  have hnum : (0 : ℚ) ≤ ((ts - (now - 86400) : Int) : ℚ) := by
    have : (0 : Int) ≤ ts - (now - 86400) := by omega
    exact_mod_cast this
  have hq0 : (0 : ℚ) ≤ ((ts - (now - 86400) : Int) : ℚ) / ((86400 : ℚ) / (points : ℚ)) :=
    div_nonneg hnum (le_of_lt hw)
  have hfloor0 : 0 ≤ ⌊((ts - (now - 86400) : Int) : ℚ) / ((86400 : ℚ) / (points : ℚ))⌋ :=
    Int.floor_nonneg.mpr hq0
  simp only [seriesIdx, specIdx]
  rw [if_neg (not_lt.mpr hfloor0)]
  by_cases hcl : (points : Int) ≤ ⌊((ts - (now - 86400) : Int) : ℚ)
      / ((86400 : ℚ) / (points : ℚ))⌋
  · rw [if_pos hcl]
    congr 1
    rw [min_eq_left (by omega)]
  · rw [if_neg hcl]
    congr 1
    rw [min_eq_right (by omega)]

theorem resBucketAdd_cpu_count (b : ResBucket) (r : HeartbeatRow) :
    (resBucketAdd b r).cpu_count = b.cpu_count + (if r.cpu_load.isSome then 1 else 0) := by
  rcases hc : r.cpu_load with _ | c <;> rcases hm : r.mem_load with _ | m <;>
    simp [resBucketAdd, hc, hm]

theorem resBucketAdd_cpu_sum (b : ResBucket) (r : HeartbeatRow) :
    (resBucketAdd b r).cpu_sum = b.cpu_sum + r.cpu_load.getD 0 := by
  rcases hc : r.cpu_load with _ | c <;> rcases hm : r.mem_load with _ | m <;>
    simp [resBucketAdd, hc, hm]

theorem resBucketAdd_mem_count (b : ResBucket) (r : HeartbeatRow) :
    (resBucketAdd b r).mem_count = b.mem_count + (if r.mem_load.isSome then 1 else 0) := by
  rcases hc : r.cpu_load with _ | c <;> rcases hm : r.mem_load with _ | m <;>
    simp [resBucketAdd, hc, hm]

theorem resBucketAdd_mem_sum (b : ResBucket) (r : HeartbeatRow) :
    (resBucketAdd b r).mem_sum = b.mem_sum + r.mem_load.getD 0 := by
  rcases hc : r.cpu_load with _ | c <;> rcases hm : r.mem_load with _ | m <;>
    simp [resBucketAdd, hc, hm]

theorem foldl_resBucketAdd_cpu (l : List HeartbeatRow) : ∀ b : ResBucket,
    ((l.foldl resBucketAdd b).cpu_count
        = b.cpu_count + (l.filter (fun r => r.cpu_load.isSome)).length)
    ∧ ((l.foldl resBucketAdd b).cpu_sum
        = b.cpu_sum + ((l.filter (fun r => r.cpu_load.isSome)).map
            (fun r => r.cpu_load.getD 0)).sum) := by
  induction l with
  | nil => intro b; simp
  | cons r l ih =>
    intro b
    rw [List.foldl_cons, List.filter_cons]
    obtain ⟨ihc, ihs⟩ := ih (resBucketAdd b r)
    by_cases hc : r.cpu_load.isSome
    · rw [if_pos hc]
      constructor
      · rw [ihc, resBucketAdd_cpu_count, if_pos hc, List.length_cons]
        omega
      · rw [ihs, resBucketAdd_cpu_sum, List.map_cons, List.sum_cons]
        ring
    · rw [if_neg hc]
      have hnone : r.cpu_load = none := Option.not_isSome_iff_eq_none.mp hc
      constructor
      · rw [ihc, resBucketAdd_cpu_count, if_neg hc]
        omega
      · rw [ihs, resBucketAdd_cpu_sum, hnone]
        simp

theorem foldl_resBucketAdd_mem (l : List HeartbeatRow) : ∀ b : ResBucket,
    ((l.foldl resBucketAdd b).mem_count
        = b.mem_count + (l.filter (fun r => r.mem_load.isSome)).length)
    ∧ ((l.foldl resBucketAdd b).mem_sum
        = b.mem_sum + ((l.filter (fun r => r.mem_load.isSome)).map
            (fun r => r.mem_load.getD 0)).sum) := by
  induction l with
  | nil => intro b; simp
  | cons r l ih =>
    intro b
    rw [List.foldl_cons, List.filter_cons]
    obtain ⟨ihc, ihs⟩ := ih (resBucketAdd b r)
    by_cases hm : r.mem_load.isSome
    · rw [if_pos hm]
      constructor
      · rw [ihc, resBucketAdd_mem_count, if_pos hm, List.length_cons]
        omega
      · rw [ihs, resBucketAdd_mem_sum, List.map_cons, List.sum_cons]
        ring
    · rw [if_neg hm]
      have hnone : r.mem_load = none := Option.not_isSome_iff_eq_none.mp hm
      constructor
      · rw [ihc, resBucketAdd_mem_count, if_neg hm]
        omega
      · rw [ihs, resBucketAdd_mem_sum, hnone]
        simp

theorem resBucketsFold_aux (s : Int) (w : ℚ) (points : Nat) (rows : List HeartbeatRow) :
    ∀ (bs : Nat → ResBucket) (j : Nat),
      (rows.foldl (fun bs r =>
        match seriesIdx s w points r.ts with
        | none => bs
        | some idx => fun j2 => if j2 = idx then resBucketAdd (bs j2) r else bs j2) bs) j
      = (rows.filter (fun r => decide (seriesIdx s w points r.ts = some j))).foldl
          resBucketAdd (bs j) := by
  induction rows with
  | nil => intro bs j; rfl
  | cons r rows ih =>
    intro bs j
    rw [List.foldl_cons, List.filter_cons, ih]
    cases hidx : seriesIdx s w points r.ts with
    | none => simp [hidx]
    | some idx =>
      by_cases hj : j = idx
      · subst hj
        simp [hidx]
      · simp [hidx, hj, Ne.symm hj]

theorem resBucketsFold_char (s : Int) (w : ℚ) (points : Nat) (rows : List HeartbeatRow)
    (j : Nat) :
    resBucketsFold s w points rows j
      = (rows.filter (fun r => decide (seriesIdx s w points r.ts = some j))).foldl
          resBucketAdd emptyResBucket := by
  unfold resBucketsFold
  exact resBucketsFold_aux s w points rows (fun _ => emptyResBucket) j

/-- C5: point `i` of the resource series starts at
`windowStart + floor(i * bucketWidth)` and carries, for each metric
independently, the average of exactly those events of the trailing-24h window
whose clamped real-valued bucket index (`specIdx`) is `i` and whose metric is
present — or no value when there are none.  In particular the index is
clamped to the last bucket, never overflowing, and an event null in one
metric still counts for the other. -/
theorem resource_series_characterization (db : DB) (sid : Nat) (now : Int) (points : Nat)
    (hp : 0 < points) (i : Nat) (hi : i < points)
    (Scpu : List HeartbeatRow)
    (hScpu : Scpu = db.heartbeat_status.filter (fun r =>
      r.server_id == sid && decide (now - 86400 ≤ r.ts)
        && decide (specIdx now points r.ts = i) && r.cpu_load.isSome))
    (Smem : List HeartbeatRow)
    (hSmem : Smem = db.heartbeat_status.filter (fun r =>
      r.server_id == sid && decide (now - 86400 ≤ r.ts)
        && decide (specIdx now points r.ts = i) && r.mem_load.isSome)) :
    ∃ p : SeriesPoint,
      (get_server_resource_series db sid now points).get? i = some p ∧
      p.ts = now - 86400 + ⌊(i : ℚ) * ((86400 : ℚ) / (points : ℚ))⌋ ∧
      p.cpu = (if Scpu.length = 0 then none
        else some ((Scpu.map (fun r => r.cpu_load.getD 0)).sum / (Scpu.length : ℚ))) ∧
      p.mem = (if Smem.length = 0 then none
        else some ((Smem.map (fun r => r.mem_load.getD 0)).sum / (Smem.length : ℚ))) := by
  have e2 : (24 * 3600 : Int) = 86400 := by norm_num
  have e3 : (24 * 3600 : ℚ) = 86400 := by norm_num
  simp only [get_server_resource_series, e2, e3]
  rw [List.get?_map, List.get?_range hi]
  refine ⟨_, rfl, rfl, ?_, ?_⟩
  case _ =>
    dsimp only
    rw [resBucketsFold_char]
    obtain ⟨hcnt, hsum⟩ := foldl_resBucketAdd_cpu
      (((db.heartbeat_status.filter (fun r =>
          r.server_id == sid && decide (now - 86400 ≤ r.ts))).mergeSort
          (fun a b => decide (a.ts ≤ b.ts))).filter
        (fun r => decide (seriesIdx (now - 86400) ((86400 : ℚ) / (points : ℚ)) points r.ts
          = some i))) emptyResBucket
    rw [hcnt, hsum]
    have hpermS : ((((db.heartbeat_status.filter (fun r =>
        r.server_id == sid && decide (now - 86400 ≤ r.ts))).mergeSort
        (fun a b => decide (a.ts ≤ b.ts))).filter
          (fun r => decide (seriesIdx (now - 86400) ((86400 : ℚ) / (points : ℚ)) points r.ts
            = some i))).filter (fun r => r.cpu_load.isSome)).Perm Scpu := by
      rw [List.filter_filter]
      have h1 := (List.mergeSort_perm (db.heartbeat_status.filter (fun r =>
          r.server_id == sid && decide (now - 86400 ≤ r.ts)))
          (fun a b => decide (a.ts ≤ b.ts))).filter
        (fun r => r.cpu_load.isSome
          && decide (seriesIdx (now - 86400) ((86400 : ℚ) / (points : ℚ)) points r.ts
            = some i))
      rw [List.filter_filter] at h1
      have h2 : db.heartbeat_status.filter (fun r => (r.cpu_load.isSome
          && decide (seriesIdx (now - 86400) ((86400 : ℚ) / (points : ℚ)) points r.ts
            = some i))
          && (r.server_id == sid && decide (now - 86400 ≤ r.ts))) = Scpu := by
        rw [hScpu]
        refine List.filter_congr (fun r hr => ?_)
        by_cases hts : now - 86400 ≤ r.ts
        · rw [seriesIdx_eq_spec now points r.ts hp hts]
          simp [hts, Bool.and_comm, Bool.and_left_comm, Bool.and_assoc]
        · simp [hts]
      rw [h2] at h1
      exact h1
    have hlen := hpermS.length_eq
    have hsum2 := (hpermS.map (fun r => r.cpu_load.getD 0)).sum_eq
    simp only [emptyResBucket] at *
    rw [hlen, hsum2]
    by_cases hz : Scpu.length = 0
    · rw [if_pos hz, hz]
      norm_num
    · rw [if_neg hz, if_pos (by omega : 0 < 0 + Scpu.length)]
      norm_num
  case _ =>
    dsimp only
    rw [resBucketsFold_char]
    obtain ⟨hcnt, hsum⟩ := foldl_resBucketAdd_mem
      (((db.heartbeat_status.filter (fun r =>
          r.server_id == sid && decide (now - 86400 ≤ r.ts))).mergeSort
          (fun a b => decide (a.ts ≤ b.ts))).filter
        (fun r => decide (seriesIdx (now - 86400) ((86400 : ℚ) / (points : ℚ)) points r.ts
          = some i))) emptyResBucket
    rw [hcnt, hsum]
    have hpermS : ((((db.heartbeat_status.filter (fun r =>
        r.server_id == sid && decide (now - 86400 ≤ r.ts))).mergeSort
        (fun a b => decide (a.ts ≤ b.ts))).filter
          (fun r => decide (seriesIdx (now - 86400) ((86400 : ℚ) / (points : ℚ)) points r.ts
            = some i))).filter (fun r => r.mem_load.isSome)).Perm Smem := by
      rw [List.filter_filter]
      have h1 := (List.mergeSort_perm (db.heartbeat_status.filter (fun r =>
          r.server_id == sid && decide (now - 86400 ≤ r.ts)))
          (fun a b => decide (a.ts ≤ b.ts))).filter
        (fun r => r.mem_load.isSome
          && decide (seriesIdx (now - 86400) ((86400 : ℚ) / (points : ℚ)) points r.ts
            = some i))
      rw [List.filter_filter] at h1
      have h2 : db.heartbeat_status.filter (fun r => (r.mem_load.isSome
          && decide (seriesIdx (now - 86400) ((86400 : ℚ) / (points : ℚ)) points r.ts
            = some i))
          && (r.server_id == sid && decide (now - 86400 ≤ r.ts))) = Smem := by
        rw [hSmem]
        refine List.filter_congr (fun r hr => ?_)
        by_cases hts : now - 86400 ≤ r.ts
        · rw [seriesIdx_eq_spec now points r.ts hp hts]
          simp [hts, Bool.and_comm, Bool.and_left_comm, Bool.and_assoc]
        · simp [hts]
      rw [h2] at h1
      exact h1
    have hlen := hpermS.length_eq
    have hsum2 := (hpermS.map (fun r => r.mem_load.getD 0)).sum_eq
    simp only [emptyResBucket] at *
    rw [hlen, hsum2]
    by_cases hz : Smem.length = 0
    · rw [if_pos hz, hz]
      norm_num
    · rw [if_neg hz, if_pos (by omega : 0 < 0 + Smem.length)]
      norm_num

/-- Witness for C5: one heartbeat (cpu 50, memory null) in a one-point
series; it counts for the cpu average and not for the memory average. -/
theorem resource_series_characterization_witness :
    ∃ p : SeriesPoint,
      (get_server_resource_series
          ⟨[], [], [⟨1, 7, 10, none, none, some 50, none, none, none⟩]⟩ 7 86400 1).get? 0
        = some p ∧
      p.ts = 86400 - 86400 + ⌊((0 : Nat) : ℚ) * ((86400 : ℚ) / ((1 : Nat) : ℚ))⌋ ∧
      p.cpu = (if ([⟨1, 7, 10, none, none, some 50, none, none, none⟩]
          : List HeartbeatRow).length = 0 then none
        else some ((([⟨1, 7, 10, none, none, some 50, none, none, none⟩]
            : List HeartbeatRow).map (fun r => r.cpu_load.getD 0)).sum
          / (([⟨1, 7, 10, none, none, some 50, none, none, none⟩]
            : List HeartbeatRow).length : ℚ))) ∧
      p.mem = (if ([] : List HeartbeatRow).length = 0 then none
        else some ((([] : List HeartbeatRow).map (fun r => r.mem_load.getD 0)).sum
          / (([] : List HeartbeatRow).length : ℚ))) :=
  resource_series_characterization
    ⟨[], [], [⟨1, 7, 10, none, none, some 50, none, none, none⟩]⟩ 7 86400 1
    (by norm_num) 0 (by norm_num)
    [⟨1, 7, 10, none, none, some 50, none, none, none⟩]
    (by
      have hidx : specIdx 86400 1 10 = 0 := by
        unfold specIdx
        norm_num [Nat.zero_min]
      simp [List.filter_cons, List.filter_nil, hidx])
    []
    (by simp [List.filter_cons, List.filter_nil])

end VpsStatus
